import Mathlib

/-!
Verification of the `from-my-domain` minimal MTA.

This file gives a shallow embedding, in Lean 4, of the protocol/queue core
of the repository and proves properties of the embedded code.

Embedding conventions:
* Go strings are Lean `String`s (sequences of characters; the repository
  only manipulates ASCII protocol text, where Go's byte indexing and
  character indexing coincide).
* The inbound byte stream of a connection is modelled as the list of lines
  the `bufio.Scanner` would yield, together with a flag `readErr` telling
  whether the stream ends in a read error (`r.Err() != nil`) rather than in
  a plain end-of-file.
* `time.Time` / `UnixNano` values are modelled as `Nat` nanosecond counts.
* Network effects (TLS handshakes, the remote peer's replies, delivery
  outcomes) are modelled as explicit parameters / oracles of the embedded
  functions.
-/

namespace SmtpMini

/-! ## Inbound session engine (smtp server file)

Embeds the `session` struct and the handlers of `handleConn`.
-/

/-- The `session` struct of the server: sender, recipients, body lines,
protocol step (`""`, `"mail"`, `"rcpt"`) and the TLS flag.
(`from` is a Lean keyword, so the field is named `from_`.) -/
structure session where
  from_ : String
  rcpts : List String
  data : List String
  step : String
  secure : Bool
deriving Repr, DecidableEq

/-- `(s *session) reset()`: `*s = session{secure: s.secure}` — clears every
field except `secure`. -/
def session.reset (s : session) : session :=
  { from_ := "", rcpts := [], data := [], step := "", secure := s.secure }

/-- The zero-valued session created at connection accept (`s := &session{}`). -/
def initialSession : session :=
  { from_ := "", rcpts := [], data := [], step := "", secure := false }

/-- `strings.HasPrefix(s, pre)`, computed on the character lists (the
repository's protocol text is ASCII, where Go's byte view and the
character view coincide). -/
def hasPre (s pre : String) : Bool := pre.data.isPrefixOf s.data

/-- `strings.ToUpper`, as the per-character uppercase map. -/
def goToUpper (s : String) : String := String.mk (s.data.map Char.toUpper)

/-- Go slicing `s[n:]`: drop the first `n` characters. -/
def charDrop (s : String) (n : Nat) : String := String.mk (s.data.drop n)

/-- `parseCmd`: split the line at the first space (`strings.SplitN(line, " ", 2)`),
upper-case the verb; a line without a space has an empty argument. -/
def parseCmd (line : String) : String × String :=
  (goToUpper (String.mk (line.data.takeWhile (fun c => c ≠ ' '))),
    String.mk ((line.data.dropWhile (fun c => c ≠ ' ')).drop 1))

/-- `strings.TrimSpace`: drop whitespace from both ends. -/
def goTrimSpace (s : String) : String :=
  String.mk (((s.data.dropWhile Char.isWhitespace).reverse.dropWhile
    Char.isWhitespace).reverse)

/-- `strings.TrimPrefix`: drop `pre` from the front of `s` when present. -/
def dropPre (s pre : String) : String :=
  if hasPre s pre then charDrop s pre.length else s

/-- `strings.TrimSuffix`: drop `suf` from the end of `s` when present. -/
def dropSuf (s suf : String) : String :=
  if suf.data.isSuffixOf s.data then
    String.mk (s.data.take (s.data.length - suf.length)) else s

/-- `stripAddr`: trim whitespace, then remove the angle brackets. -/
def stripAddr (v : String) : String :=
  dropSuf (dropPre (goTrimSpace v) "<") ">"

/-- `upgradeToTLS`: the session-state effect of the STARTTLS upgrade.
The TLS handshake outcome is the explicit parameter `handshakeOk`; on
failure the function returns `none` (the Go code returns the error before
touching the session).  On success the Go code runs `s.secure = true`
followed by `s.reset()`, which keeps `secure` and clears everything else. -/
def upgradeToTLS (handshakeOk : Bool) (s : session) : Option session :=
  if handshakeOk then some (session.reset { s with secure := true }) else none

/-- `strings.Join(ls, sep)`. -/
def goJoin (sep : String) : List String → String
  | [] => ""
  | [x] => x
  | x :: rest => x ++ sep ++ goJoin sep rest

/-- `strings.Join(d, "\r\n") + "\r\n"` — the body string built at the end of
`handleDATA`. -/
def joinBody (d : List String) : String :=
  goJoin "\r\n" d ++ "\r\n"

/-- `handleDATA`: starting from the accumulated `s.data`, consume input lines
until a lone `"."` (which is discarded) or the end of the stream.  Returns
the final `s.data`, the unconsumed input, and `some body` on success or
`none` when the scanner ended with a read error.  Note that lines are
appended verbatim: the loop performs no dot-unstuffing. -/
def handleDATA : List String → List String → Bool → List String × List String × Option String
  | d, [], readErr => if readErr then (d, [], none) else (d, [], some (joinBody d))
  | d, l :: rest, readErr =>
    if l = "." then (d, rest, some (joinBody d))
    else handleDATA (d ++ [l]) rest readErr

/-- A message handed to the queue by the session engine:
`queueMessage(s.from, append([]string(nil), s.rcpts...), body)`. -/
structure QMsg where
  from_ : String
  rcpts : List String
  body : String
deriving Repr, DecidableEq

/-- The observable result of processing one command line in `handleConn`'s
loop: the new session, the replies written, the unconsumed input lines, the
messages enqueued, whether a TLS handshake was attempted, and whether the
handler returns (connection closed). -/
structure StepOut where
  sess : session
  replies : List String
  rest : List String
  enq : List QMsg
  handshake : Bool
  close : Bool
deriving Repr, DecidableEq

/-- One iteration of `handleConn`'s `switch cmd` on an already-parsed
command.  `tlsOk` is the outcome the TLS handshake would have, and `rest` /
`readErr` model the remaining input stream (consumed only by `DATA`). -/
def stepCmd (tlsOk : Bool) (s : session) (cmd arg : String) (rest : List String)
    (readErr : Bool) : StepOut :=
  if cmd = "EHLO" then
    if !s.secure then ⟨s, ["250-smtpmini", "250-STARTTLS", "250 HELP"], rest, [], false, false⟩
    else ⟨s, ["250 smtpmini"], rest, [], false, false⟩
  else if cmd = "HELO" then
    ⟨session.reset s, ["250 Hello"], rest, [], false, false⟩
  else if cmd = "STARTTLS" then
    if s.secure then ⟨s, ["503 Already under TLS"], rest, [], false, false⟩
    else
      match upgradeToTLS tlsOk s with
      | some s2 => ⟨s2, ["220 Ready to start TLS"], rest, [], true, false⟩
      | none => ⟨s, ["220 Ready to start TLS"], rest, [], true, true⟩
  else if cmd = "MAIL" then
    if !(hasPre (goToUpper arg) "FROM:") then
      ⟨s, ["501 Syntax: MAIL FROM:<address>"], rest, [], false, false⟩
    else
      ⟨{ session.reset s with from_ := stripAddr (charDrop arg 5), step := "mail" },
        ["250 OK"], rest, [], false, false⟩
  else if cmd = "RCPT" then
    if s.step = "" then ⟨s, ["503 Need MAIL FROM first"], rest, [], false, false⟩
    else if !(hasPre (goToUpper arg) "TO:") then
      ⟨s, ["501 Syntax: RCPT TO:<address>"], rest, [], false, false⟩
    else
      ⟨{ s with rcpts := s.rcpts ++ [stripAddr (charDrop arg 3)], step := "rcpt" },
        ["250 OK"], rest, [], false, false⟩
  else if cmd = "DATA" then
    if s.step ≠ "rcpt" then ⟨s, ["503 Need RCPT TO first"], rest, [], false, false⟩
    else
      match handleDATA s.data rest readErr with
      | (d2, rest2, none) =>
        ⟨{ s with data := d2 }, ["354 End with <CRLF>.<CRLF>", "500 Error reading DATA"],
          rest2, [], false, false⟩
      | (d2, rest2, some body) =>
        ⟨session.reset { s with data := d2 },
          ["354 End with <CRLF>.<CRLF>", "250 Queued"],
          rest2, [⟨s.from_, s.rcpts, body⟩], false, false⟩
  else if cmd = "QUIT" then ⟨s, ["221 Bye"], rest, [], false, true⟩
  else ⟨s, ["500 Unrecognised command"], rest, [], false, false⟩

/-- Parse one raw input line and process it. -/
def lineStep (tlsOk : Bool) (s : session) (line : String) (rest : List String)
    (readErr : Bool) : StepOut :=
  stepCmd tlsOk s (parseCmd line).1 (parseCmd line).2 rest readErr

/-- The observable outcome of a whole connection: every reply written and
every message enqueued. -/
structure RunOut where
  replies : List String
  enq : List QMsg
deriving Repr, DecidableEq

/-- The read/dispatch loop of `handleConn`: process input lines until the
stream is exhausted or a command closes the connection.  Each iteration of
the Go loop consumes at least the line it dispatches on, so the number of
remaining lines bounds the number of iterations; the recursion is
structural on that bound (`runConn_cons` proves the loop-step unfolding
equation, making the bound invisible to reasoning). -/
def runConnAux (tlsOk : Bool) : Nat → session → List String → Bool → RunOut
  | _, _, [], _ => ⟨[], []⟩
  | 0, _, _ :: _, _ => ⟨[], []⟩
  | n + 1, s, line :: rest, readErr =>
    let o := lineStep tlsOk s line rest readErr
    if o.close then ⟨o.replies, o.enq⟩
    else
      let r := runConnAux tlsOk n o.sess o.rest readErr
      ⟨o.replies ++ r.replies, o.enq ++ r.enq⟩

/-- The loop of `handleConn`, from an arbitrary session state. -/
def runConn (tlsOk : Bool) (s : session) (lines : List String) (readErr : Bool) : RunOut :=
  runConnAux tlsOk lines.length s lines readErr

/-- `handleConn` as observed from outside: the greeting followed by the
replies and enqueues of the command loop, starting from the zero session. -/
def handleConn (tlsOk : Bool) (lines : List String) (readErr : Bool) : RunOut :=
  ⟨"220 smtpmini ESMTP ready" :: (runConn tlsOk initialSession lines readErr).replies,
    (runConn tlsOk initialSession lines readErr).enq⟩

/-- Session invariant: once the step is `"rcpt"`, at least one recipient has
been appended. -/
def rcptInv (s : session) : Prop := s.step = "rcpt" → s.rcpts ≠ []

/-! ## Outbound delivery client (deliver.go)

The file `deliver.go` in the repository contains two concatenated revisions
of the same Go package; the embedding follows the revision that defines
`ehlo` (the current one, whose behaviour the spec describes).
-/

/-- `strings.Contains`, on character lists: some tail of `cs` starts with
`sub`. -/
def listContains (cs sub : List Char) : Bool :=
  match cs with
  | [] => sub.isEmpty
  | _ :: rest => sub.isPrefixOf cs || listContains rest sub

/-- `strings.Contains(s, sub)`. -/
def containsSub (s sub : String) : Bool := listContains s.data sub.data

/-- `ehlo`'s read loop with its `supportsTLS` accumulator: a `250-` line is
a continuation, a `250 ` line ends the block, anything else is an error;
every line read is scanned for `STARTTLS`.  The input models the lines the
peer's reply stream would yield; reading past its end is a read error.
Returns the accumulated flag and the unread remainder of the stream. -/
def ehloScan (supportsTLS : Bool) : List String → Except String (Bool × List String)
  | [] => .error "read error"
  | l :: rest =>
    if hasPre l "250-" then
      ehloScan (supportsTLS || containsSub l "STARTTLS") rest
    else if hasPre l "250 " then
      .ok (supportsTLS || containsSub l "STARTTLS", rest)
    else .error ("unexpected EHLO line: " ++ l)

/-- `ehlo(tp)`: scan with the flag initially false. -/
def ehlo (input : List String) : Except String (Bool × List String) :=
  ehloScan false input

/-- `strings.ReplaceAll(data, "\n.", "\n..")` specialised to its pattern:
the non-overlapping left-to-right replacement doubles the period of every
line that begins with one — except a period at the very first byte, which
has no preceding newline. -/
def dotStuffChars : List Char → List Char
  | '\n' :: '.' :: rest => '\n' :: '.' :: '.' :: dotStuffChars rest
  | c :: rest => c :: dotStuffChars rest
  | [] => []

/-- The `dotted` string of `deliver`'s content-transfer step. -/
def dotStuff (s : String) : String := String.mk (dotStuffChars s.data)

/-! ## Queue store and scheduler (deliver.go) -/

/-- The on-disk message record (`Message` struct).  Timestamps are `Nat`
nanosecond counts since the epoch. -/
structure Message where
  ID : String
  From : String
  Rcpts : List String
  Data : String
  Attempts : Nat
  LastError : String
  NextTry : Nat
deriving Repr, DecidableEq

/-- One minute in nanoseconds (`time.Minute`). -/
def minuteNs : Nat := 60 * 1000000000

/-- Decimal digit characters, for rendering `fmt.Sprintf("%d", n)`. -/
def digitChar (d : Nat) : Char :=
  match d with
  | 0 => '0' | 1 => '1' | 2 => '2' | 3 => '3' | 4 => '4'
  | 5 => '5' | 6 => '6' | 7 => '7' | 8 => '8' | _ => '9'

/-- The decimal rendering of a natural number, most significant digit
first — the character sequence `fmt.Sprintf("%d", n)` produces for a
non-negative integer. -/
def decDigits (n : Nat) : List Char :=
  if n < 10 then [digitChar n]
  else decDigits (n / 10) ++ [digitChar (n % 10)]
termination_by n
decreasing_by exact Nat.div_lt_self (by omega) (by omega)

/-- Numeric value of a digit character. -/
def charVal (c : Char) : Nat := c.toNat - 48

/-- Value of a most-significant-first digit string. -/
def valOf (ds : List Char) : Nat := ds.foldl (fun a c => 10 * a + charVal c) 0

/-- The prefix of a character list up to (excluding) its first dash. -/
def takeUntilDash (cs : List Char) : List Char := cs.takeWhile (fun c => c ≠ '-')

/-- `strings.ReplaceAll(m.From, "@", "_")`: the pattern is a single
character, so the replacement is a character map. -/
def replaceAt (s : String) : String :=
  String.mk (s.data.map (fun c => if c = '@' then '_' else c))

/-- The id assigned by `enqueue`:
`fmt.Sprintf("%d-%s.json", time.Now().UnixNano(), strings.ReplaceAll(m.From, "@", "_"))`.
`tId` is the `UnixNano()` value of that call. -/
def mkId (tId : Nat) (from_ : String) : String :=
  String.mk (decDigits tId) ++ "-" ++ replaceAt from_ ++ ".json"

/-- `enqueue(m)`: assign the id and the next-attempt time, then write the
record.  `tId` and `tNow` are the results of the two `time.Now()` calls;
the durable store effect is the returned record. -/
def enqueue (tId tNow : Nat) (m : Message) : Message :=
  { m with ID := mkId tId m.From, NextTry := tNow }

/-- `queueMessage(from, rcpts, data)`: build the record with Go's
zero values for the remaining fields and enqueue it. -/
def queueMessage (tId tNow : Nat) (from_ : String) (rcpts : List String)
    (data : String) : Message :=
  enqueue tId tNow
    { ID := "", From := from_, Rcpts := rcpts, Data := data,
      Attempts := 0, LastError := "", NextTry := 0 }

/-- Outcome of the scheduler's handling of one record in a cycle. -/
inductive SchedOutcome where
  | skipped (m : Message)
  | persisted (m : Message)
  | removed
deriving Repr, DecidableEq

/-- The body of `launchScheduler`'s per-record loop.  `deliverErr m` is the
outcome `deliver(m)` would have (`some e` = failure with error text `e`,
`none` = success); `now` is the cycle's `time.Now()`.  A future record is
skipped; a failed attempt increments `Attempts`, records the error, moves
`NextTry` to `now + Attempts*15min` (with the incremented count) and
persists; a successful attempt removes the record. -/
def schedStep (deliverErr : Message → Option String) (now : Nat) (m : Message) :
    SchedOutcome :=
  if now < m.NextTry then .skipped m
  else
    match deliverErr m with
    | some e =>
      .persisted
        { m with
          Attempts := m.Attempts + 1
          LastError := e
          NextTry := now + (m.Attempts + 1) * 15 * minuteNs }
    | none => .removed

/-- The durable-store contents after one scheduler cycle over `msgs`. -/
def schedulerCycle (deliverErr : Message → Option String) (now : Nat)
    (msgs : List Message) : List Message :=
  msgs.filterMap (fun m =>
    match schedStep deliverErr now m with
    | .skipped m2 => some m2
    | .persisted m2 => some m2
    | .removed => none)

/-- `strings.LastIndexByte(s, c)`: index of the last occurrence, `-1` when
absent. -/
def lastIndexByte (s : String) (c : Char) : Int :=
  match s.data.reverse.findIdx? (fun x => x = c) with
  | some i => (s.data.length : Int) - 1 - (i : Int)
  | none => -1

/-- The domain slice `r[strings.LastIndexByte(r, '@')+1:]` of deliver's MX
step. -/
def domainOf (r : String) : String :=
  charDrop r (lastIndexByte r '@' + 1).toNat

/-- Step 1 of `deliver`: the domain of `m.Rcpts[0]`.  The Go code indexes
position 0 without a guard; the embedding returns `none` exactly when that
index has no value. -/
def firstRcptDomain (m : Message) : Option String :=
  match m.Rcpts with
  | [] => none
  | r :: _ => some (domainOf r)

/-! ## Helper lemmas -/

/-- `handleDATA` never produces more unconsumed input than it was given. -/
theorem handleDATA_rest_le (ls : List String) : ∀ (d : List String) (e : Bool),
    (handleDATA d ls e).2.1.length ≤ ls.length := by
  induction ls with
  | nil => intro d e; simp only [handleDATA]; split <;> simp
  | cons l r ih =>
    intro d e
    simp only [handleDATA]
    split
    · simp
    · exact Nat.le_succ_of_le (ih _ _)

/-- `stepCmd` never produces more unconsumed input than it was given. -/
theorem stepCmd_rest_le (tlsOk : Bool) (s : session) (cmd arg : String)
    (rest : List String) (readErr : Bool) :
    (stepCmd tlsOk s cmd arg rest readErr).rest.length ≤ rest.length := by
  have h := handleDATA_rest_le rest s.data readErr
  unfold stepCmd
  repeat' split
  all_goals simp_all

/-- `lineStep` never produces more unconsumed input than it was given. -/
theorem lineStep_rest_le (tlsOk : Bool) (s : session) (line : String)
    (rest : List String) (readErr : Bool) :
    (lineStep tlsOk s line rest readErr).rest.length ≤ rest.length :=
  stepCmd_rest_le ..

/-- Any sufficient fuel computes the same loop result. -/
theorem runConnAux_fuel (tlsOk : Bool) (readErr : Bool) :
    ∀ (n m : Nat) (s : session) (lines : List String),
      lines.length ≤ n → lines.length ≤ m →
      runConnAux tlsOk n s lines readErr = runConnAux tlsOk m s lines readErr := by
  intro n
  induction n with
  | zero =>
    intro m s lines hn hm
    cases lines with
    | nil => cases m <;> rfl
    | cons l rest => simp at hn
  | succ n ih =>
    intro m s lines hn hm
    cases lines with
    | nil => cases m <;> rfl
    | cons l rest =>
      cases m with
      | zero => simp at hm
      | succ m =>
        simp only [runConnAux]
        have hr := lineStep_rest_le tlsOk s l rest readErr
        have h1 : (lineStep tlsOk s l rest readErr).rest.length ≤ n :=
          le_trans hr (by simpa using hn)
        have h2 : (lineStep tlsOk s l rest readErr).rest.length ≤ m :=
          le_trans hr (by simpa using hm)
        by_cases hc : (lineStep tlsOk s l rest readErr).close <;> simp [hc]
        rw [ih m _ _ h1 h2]
        exact ⟨rfl, rfl⟩

/-- `runConn` on the empty stream. -/
theorem runConn_nil (tlsOk : Bool) (s : session) (readErr : Bool) :
    runConn tlsOk s [] readErr = ⟨[], []⟩ := rfl

/-- The loop-step unfolding equation of `runConn`: dispatch one line, then
continue with the stepped session on the unconsumed input unless the step
closed the connection. -/
theorem runConn_cons (tlsOk : Bool) (s : session) (line : String) (rest : List String)
    (readErr : Bool) :
    runConn tlsOk s (line :: rest) readErr =
      (if (lineStep tlsOk s line rest readErr).close then
        ⟨(lineStep tlsOk s line rest readErr).replies,
          (lineStep tlsOk s line rest readErr).enq⟩
      else
        ⟨(lineStep tlsOk s line rest readErr).replies ++
            (runConn tlsOk (lineStep tlsOk s line rest readErr).sess
              (lineStep tlsOk s line rest readErr).rest readErr).replies,
          (lineStep tlsOk s line rest readErr).enq ++
            (runConn tlsOk (lineStep tlsOk s line rest readErr).sess
              (lineStep tlsOk s line rest readErr).rest readErr).enq⟩) := by
  unfold runConn
  simp only [List.length_cons, runConnAux]
  by_cases hc : (lineStep tlsOk s line rest readErr).close <;> simp [hc]
  rw [runConnAux_fuel tlsOk readErr rest.length
    (lineStep tlsOk s line rest readErr).rest.length _ _ (lineStep_rest_le ..) le_rfl]
  exact ⟨rfl, rfl⟩

/-! ## Claim theorems -/

/-- C1 (code bug): the inbound data phase stores a received line `..`
verbatim — `handleDATA` appends lines without transparency-unescaping, so
the wire lines `..`, `.` leave `..` (not `.`) in the stored content; and
the outbound escaping (`ReplaceAll "\n." "\n.."`) does not double a period
that starts the very first line.  The claimed round trip therefore fails. -/
theorem data_phase_keeps_doubled_dot :
    handleDATA [] ["..", "."] false = ([".."], [], some "..\r\n") ∧
    (handleDATA [] ["..", "."] false).1 ≠ ["."] ∧
    dotStuff ".x\r\ny" = ".x\r\ny" := by
  refine ⟨by decide, by decide, by decide⟩

/-- C2: a successful STARTTLS upgrade leaves the sender, recipient list,
body lines and step empty regardless of the pre-upgrade state, and the
secure flag set. -/
theorem upgrade_clears_session (ok : Bool) (s s2 : session)
    (h : upgradeToTLS ok s = some s2) :
    s2.from_ = "" ∧ s2.rcpts = [] ∧ s2.data = [] ∧ s2.step = "" ∧ s2.secure = true := by
  unfold upgradeToTLS at h
  split at h
  · cases h
    simp [session.reset]
  · cases h

/-- Witness for C2 at a session holding data in every field. -/
theorem upgrade_clears_session_witness :
    (session.mk "" [] [] "" true).from_ = "" ∧ (session.mk "" [] [] "" true).rcpts = [] ∧
    (session.mk "" [] [] "" true).data = [] ∧ (session.mk "" [] [] "" true).step = "" ∧
    (session.mk "" [] [] "" true).secure = true :=
  upgrade_clears_session true (session.mk "a@b" ["c@d"] ["line"] "rcpt" false)
    (session.mk "" [] [] "" true) (by decide)

/-- C4: a recipient command before any sender command, or a data-start
command before any recipient command, is answered `503` and changes
nothing: same session (sender, recipients, body lines, phase), no input
consumed, nothing enqueued, no handshake, connection kept open. -/
theorem out_of_order_command_rejected (tlsOk : Bool) (s : session) (arg : String)
    (rest : List String) (readErr : Bool) :
    (s.step = "" →
      stepCmd tlsOk s "RCPT" arg rest readErr =
        ⟨s, ["503 Need MAIL FROM first"], rest, [], false, false⟩) ∧
    (s.step ≠ "rcpt" →
      stepCmd tlsOk s "DATA" arg rest readErr =
        ⟨s, ["503 Need RCPT TO first"], rest, [], false, false⟩) := by
  constructor <;> intro h <;> simp [stepCmd, h]

/-- Witness for C4 at the initial session. -/
theorem out_of_order_command_rejected_witness :
    stepCmd false initialSession "RCPT" "TO:<c@d>" [] false =
      ⟨initialSession, ["503 Need MAIL FROM first"], [], [], false, false⟩ ∧
    stepCmd false initialSession "DATA" "" [] false =
      ⟨initialSession, ["503 Need RCPT TO first"], [], [], false, false⟩ :=
  ⟨(out_of_order_command_rejected false initialSession "TO:<c@d>" [] false).1 rfl,
    (out_of_order_command_rejected false initialSession "" [] false).2 (by decide)⟩

/-- C5: STARTTLS on an already-secure session is answered
`503 Already under TLS`, no handshake is attempted, and the session, input
stream and connection are untouched. -/
theorem starttls_when_secure_rejected (tlsOk : Bool) (s : session) (arg : String)
    (rest : List String) (readErr : Bool) (h : s.secure = true) :
    stepCmd tlsOk s "STARTTLS" arg rest readErr =
      ⟨s, ["503 Already under TLS"], rest, [], false, false⟩ := by
  simp [stepCmd, h]

/-- Witness for C5 at a secure session. -/
theorem starttls_when_secure_rejected_witness :
    stepCmd true (session.mk "a@b" ["c@d"] [] "rcpt" true) "STARTTLS" "" ["EHLO x"] false =
      ⟨session.mk "a@b" ["c@d"] [] "rcpt" true, ["503 Already under TLS"],
        ["EHLO x"], [], false, false⟩ :=
  starttls_when_secure_rejected true (session.mk "a@b" ["c@d"] [] "rcpt" true)
    "" ["EHLO x"] false rfl

/-- Accumulator characterisation of `ehloScan` over a well-formed reply:
`cont` are the continuation lines, `f` the final line, `rest` the stream
beyond the reply. -/
theorem ehloScan_spec (rest : List String) (f : String)
    (hf1 : hasPre f "250-" = false) (hf2 : hasPre f "250 " = true) :
    ∀ (cont : List String) (b : Bool), (∀ l ∈ cont, hasPre l "250-" = true) →
      ehloScan b (cont ++ f :: rest) =
        .ok (b || (cont ++ [f]).any (fun l => containsSub l "STARTTLS"), rest) := by
  intro cont
  induction cont with
  | nil =>
    intro b hc
    simp only [List.nil_append, ehloScan, hf1, hf2]
    simp
  | cons l cs ih =>
    intro b hc
    have hl : hasPre l "250-" = true := hc l (by simp)
    simp only [List.cons_append, ehloScan, hl, if_pos, List.append_eq]
    rw [ih _ (fun x hx => hc x (by simp [hx]))]
    simp [Bool.or_assoc]

/-- C3: the delivery client's EHLO exchange reads every line of the
multi-line reply (returning exactly the unread remainder of the stream) and
reports STARTTLS support iff the capability token appears in some line of
the reply — continuation (`250-`) or final (`250 `). -/
theorem ehlo_reads_all_and_detects_starttls (cont : List String) (f : String)
    (rest : List String) (hc : ∀ l ∈ cont, hasPre l "250-" = true)
    (hf1 : hasPre f "250-" = false) (hf2 : hasPre f "250 " = true) :
    ehlo (cont ++ f :: rest) =
      .ok ((cont ++ [f]).any (fun l => containsSub l "STARTTLS"), rest) ∧
    ((cont ++ [f]).any (fun l => containsSub l "STARTTLS") = true ↔
      ∃ l ∈ cont ++ [f], containsSub l "STARTTLS" = true) := by
  constructor
  · unfold ehlo
    rw [ehloScan_spec rest f hf1 hf2 cont false hc]
    simp
  · exact List.any_eq_true

/-- Witness for C3: a three-line reply advertising STARTTLS in a
continuation line, fully consumed. -/
theorem ehlo_reads_all_and_detects_starttls_witness :
    ehlo ["250-smtpmini", "250-STARTTLS", "250 HELP"] = .ok (true, []) := by
  have h := (ehlo_reads_all_and_detects_starttls ["250-smtpmini", "250-STARTTLS"]
    "250 HELP" [] (by decide) (by decide) (by decide)).1
  simp only [List.cons_append, List.nil_append] at h
  have ha : (["250-smtpmini", "250-STARTTLS", "250 HELP"].any
      fun l => containsSub l "STARTTLS") = true := by decide
  rw [h, ha]

/-- Body collection that never sees a lone `.` consumes the whole stream
and completes with everything appended. -/
theorem handleDATA_no_dot (ls : List String) : ∀ d : List String, "." ∉ ls →
    handleDATA d ls false = (d ++ ls, [], some (joinBody (d ++ ls))) := by
  induction ls with
  | nil => intro d h; simp [handleDATA]
  | cons l rest ih =>
    intro d h
    have hl : l ≠ "." := fun he => h (by simp [he])
    simp only [handleDATA]
    rw [if_neg hl, ih (d ++ [l]) (fun hx => h (by simp [hx]))]
    simp

/-- Body collection ending at the lone-`.` terminator completes with the
lines before it appended and the terminator discarded. -/
theorem handleDATA_dot_end (ls : List String) : ∀ d : List String, "." ∉ ls →
    handleDATA d (ls ++ ["."]) false = (d ++ ls, [], some (joinBody (d ++ ls))) := by
  induction ls with
  | nil => intro d h; simp [handleDATA]
  | cons l rest ih =>
    intro d h
    have hl : l ≠ "." := fun he => h (by simp [he])
    simp only [List.cons_append, handleDATA, List.append_eq]
    rw [if_neg hl, ih (d ++ [l]) (fun hx => h (by simp [hx]))]
    simp

/-- C10: if the inbound stream ends at EOF (no read error) during body
collection before any lone-period line, the body is treated as complete:
the connection outcome is identical to the run where the terminator line
arrives, and the collected lines are joined with CRLF and enqueued. -/
theorem eof_ends_data_like_terminator (tlsOk : Bool) (s : session) (ls : List String)
    (h1 : s.step = "rcpt") (h2 : "." ∉ ls) :
    runConn tlsOk s ("DATA" :: ls) false = runConn tlsOk s ("DATA" :: (ls ++ ["."])) false ∧
    (runConn tlsOk s ("DATA" :: ls) false).enq =
      [⟨s.from_, s.rcpts, joinBody (s.data ++ ls)⟩] := by
  have hp : parseCmd "DATA" = ("DATA", "") := by decide
  have hA := handleDATA_no_dot ls s.data h2
  have hB := handleDATA_dot_end ls s.data h2
  rw [runConn_cons, runConn_cons]
  simp only [lineStep, hp]
  simp [stepCmd, h1, hA, hB, runConn_nil]

/-- Witness for C10: EOF after three body lines enqueues the same message
the dot-terminated run enqueues. -/
theorem eof_ends_data_like_terminator_witness :
    runConn false (session.mk "a@b" ["c@d"] [] "rcpt" false)
        ["DATA", "Subject: hi", "", "body"] false =
      runConn false (session.mk "a@b" ["c@d"] [] "rcpt" false)
        ["DATA", "Subject: hi", "", "body", "."] false ∧
    (runConn false (session.mk "a@b" ["c@d"] [] "rcpt" false)
        ["DATA", "Subject: hi", "", "body"] false).enq =
      [⟨"a@b", ["c@d"], "Subject: hi\r\n\r\nbody\r\n"⟩] :=
  eof_ends_data_like_terminator false (session.mk "a@b" ["c@d"] [] "rcpt" false)
    ["Subject: hi", "", "body"] rfl (by decide)

/-- `stepCmd` preserves the recipient invariant. -/
theorem stepCmd_rcptInv (tlsOk : Bool) (s : session) (cmd arg : String)
    (rest : List String) (readErr : Bool) (h : rcptInv s) :
    rcptInv (stepCmd tlsOk s cmd arg rest readErr).sess := by
  unfold rcptInv at h ⊢
  unfold stepCmd upgradeToTLS
  cases tlsOk
  all_goals repeat' split
  all_goals intro hst
  all_goals try simp_all [session.reset]
  all_goals (rename_i heq; subst heq; simp_all [session.reset])

/-- Every message `stepCmd` enqueues has the session's recipient list,
non-empty under the invariant. -/
theorem stepCmd_enq_rcpts (tlsOk : Bool) (s : session) (cmd arg : String)
    (rest : List String) (readErr : Bool) (h : rcptInv s) :
    ∀ m ∈ (stepCmd tlsOk s cmd arg rest readErr).enq, m.rcpts ≠ [] := by
  unfold rcptInv at h
  unfold stepCmd upgradeToTLS
  cases tlsOk
  all_goals repeat' split
  all_goals intro m hm
  all_goals simp_all

/-- The loop only enqueues messages with non-empty recipient lists, from
any session satisfying the invariant. -/
theorem runConnAux_enq_rcpts (tlsOk readErr : Bool) :
    ∀ (n : Nat) (s : session) (lines : List String), rcptInv s →
      ∀ m ∈ (runConnAux tlsOk n s lines readErr).enq, m.rcpts ≠ [] := by
  intro n
  induction n with
  | zero =>
    intro s lines hinv m hm
    cases lines <;> simp [runConnAux] at hm
  | succ n ih =>
    intro s lines hinv m hm
    cases lines with
    | nil => simp [runConnAux] at hm
    | cons line rest =>
      simp only [runConnAux] at hm
      by_cases hc : (lineStep tlsOk s line rest readErr).close
      · rw [if_pos hc] at hm
        exact stepCmd_enq_rcpts tlsOk s (parseCmd line).1 (parseCmd line).2 rest readErr hinv m hm
      · rw [if_neg hc] at hm
        simp only [List.mem_append] at hm
        rcases hm with hm | hm
        · exact stepCmd_enq_rcpts tlsOk s (parseCmd line).1 (parseCmd line).2 rest readErr hinv m hm
        · exact ih _ _ (stepCmd_rcptInv tlsOk s (parseCmd line).1 (parseCmd line).2 rest readErr hinv) m hm

/-- C7: every message record the session engine hands to the queue store
has a non-empty recipient list, over every possible connection input:
the data phase starts only in step `"rcpt"`, which is reachable only after
a successful recipient command appended an address. -/
theorem enqueued_rcpts_nonempty (tlsOk : Bool) (lines : List String) (readErr : Bool)
    (m : QMsg) (hm : m ∈ (handleConn tlsOk lines readErr).enq) : m.rcpts ≠ [] :=
  runConnAux_enq_rcpts tlsOk readErr lines.length initialSession lines
    (fun h => absurd h (by decide)) m hm

/-- Witness for C7: the repository's own test dialogue enqueues one
message, whose recipient list is non-empty. -/
theorem enqueued_rcpts_nonempty_witness :
    (QMsg.mk "a@b" ["c@d"] "Subject: hi\r\n\r\nbody\r\n").rcpts ≠ [] :=
  enqueued_rcpts_nonempty false
    ["EHLO x", "MAIL FROM:<a@b>", "RCPT TO:<c@d>", "DATA",
      "Subject: hi", "", "body", ".", "QUIT"]
    false (QMsg.mk "a@b" ["c@d"] "Subject: hi\r\n\r\nbody\r\n") (by decide)

/-- C6: in a scheduler cycle, a record whose next-attempt time is not in
the future is attempted.  On failure its attempts counter grows by exactly
1, the error text is recorded, the next-attempt time becomes now plus the
incremented count times 15 minutes, and the updated record is what the
store keeps; on success the record is removed from the store. -/
theorem scheduler_due_record_outcome (dr : Message → Option String) (now : Nat)
    (m : Message) (hdue : ¬ now < m.NextTry) :
    (∀ e, dr m = some e →
      schedStep dr now m = .persisted
        { m with
          Attempts := m.Attempts + 1
          LastError := e
          NextTry := now + (m.Attempts + 1) * 15 * minuteNs } ∧
      schedulerCycle dr now [m] =
        [{ m with
           Attempts := m.Attempts + 1
           LastError := e
           NextTry := now + (m.Attempts + 1) * 15 * minuteNs }]) ∧
    (dr m = none → schedStep dr now m = .removed ∧ schedulerCycle dr now [m] = []) := by
  constructor
  · intro e he
    constructor <;> simp [schedStep, schedulerCycle, hdue, he]
  · intro he
    constructor <;> simp [schedStep, schedulerCycle, hdue, he]

/-- Witness for C6: a due record (2 prior attempts) deferred on failure and
removed on success. -/
theorem scheduler_due_record_outcome_witness :
    schedStep (fun _ => some "no MX found") 100 (Message.mk "i" "a@b" ["c@d"] "x" 2 "" 50) =
      .persisted (Message.mk "i" "a@b" ["c@d"] "x" 3 "no MX found" (100 + 3 * 15 * minuteNs)) ∧
    schedStep (fun _ => none) 100 (Message.mk "i" "a@b" ["c@d"] "x" 2 "" 50) = .removed :=
  ⟨((scheduler_due_record_outcome (fun _ => some "no MX found") 100
      (Message.mk "i" "a@b" ["c@d"] "x" 2 "" 50) (by decide)).1 "no MX found" rfl).1,
    ((scheduler_due_record_outcome (fun _ => none) 100
      (Message.mk "i" "a@b" ["c@d"] "x" 2 "" 50) (by decide)).2 rfl).1⟩

/-- C9: `deliver`'s MX step indexes `m.Rcpts[0]` with no guard.  For every
message with a non-empty recipient list the access is in range and the
domain is defined; with an empty list the index has no value, so the
non-empty-recipients precondition is what makes the step total. -/
theorem deliver_first_rcpt_indexing (m : Message) :
    (m.Rcpts ≠ [] → ∃ d, firstRcptDomain m = some d) ∧
    (m.Rcpts = [] → firstRcptDomain m = none) := by
  rcases m with ⟨id, fr, rcpts, data, att, le, nt⟩
  cases rcpts with
  | nil => exact ⟨fun h => absurd rfl h, fun _ => rfl⟩
  | cons r rs => exact ⟨fun _ => ⟨domainOf r, rfl⟩, fun h => by simp at h⟩

/-- Witness for C9: the domain is defined for a one-recipient message and
undefined for an empty recipient list. -/
theorem deliver_first_rcpt_indexing_witness :
    (∃ d, firstRcptDomain (Message.mk "i" "a@b" ["c@d.com"] "x" 0 "" 0) = some d) ∧
    firstRcptDomain (Message.mk "i" "a@b" [] "x" 0 "" 0) = none :=
  ⟨(deliver_first_rcpt_indexing (Message.mk "i" "a@b" ["c@d.com"] "x" 0 "" 0)).1 (by decide),
    (deliver_first_rcpt_indexing (Message.mk "i" "a@b" [] "x" 0 "" 0)).2 rfl⟩

/-- Digit characters are never the dash separating the id's fields. -/
theorem digitChar_ne_dash (d : Nat) : digitChar d ≠ '-' := by
  unfold digitChar
  split <;> decide

/-- Digit characters decode back to their value. -/
theorem digitChar_val (d : Nat) (h : d < 10) : charVal (digitChar d) = d := by
  unfold digitChar charVal
  interval_cases d <;> decide

/-- A decimal rendering decodes back to the number it renders. -/
theorem valOf_decDigits (n : Nat) : valOf (decDigits n) = n := by
  induction n using decDigits.induct with
  | case1 n h =>
    rw [decDigits, if_pos h]
    simp [valOf, digitChar_val n h]
  | case2 n h ih =>
    rw [decDigits, if_neg h]
    unfold valOf at ih ⊢
    rw [List.foldl_append]
    simp only [List.foldl_cons, List.foldl_nil, ih]
    rw [digitChar_val (n % 10) (Nat.mod_lt _ (by omega))]
    omega

/-- Decimal renderings are injective. -/
theorem decDigits_inj (a b : Nat) (h : decDigits a = decDigits b) : a = b := by
  have ha := valOf_decDigits a
  rw [h, valOf_decDigits] at ha
  omega

/-- Decimal renderings contain no dash. -/
theorem decDigits_no_dash (n : Nat) : ∀ c ∈ decDigits n, c ≠ '-' := by
  induction n using decDigits.induct with
  | case1 n h =>
    rw [decDigits, if_pos h]
    simpa using digitChar_ne_dash n
  | case2 n h ih =>
    rw [decDigits, if_neg h]
    intro c hc
    rcases List.mem_append.mp hc with h1 | h1
    · exact ih c h1
    · simp only [List.mem_singleton] at h1
      subst h1
      exact digitChar_ne_dash _
/-- Decimal renderings are never empty. -/
theorem decDigits_ne_nil (n : Nat) : decDigits n ≠ [] := by
  rw [decDigits]
  split <;> simp

/-- Taking up to the first dash recovers a dash-free block. -/
theorem takeUntilDash_append (ds : List Char) (h : ∀ c ∈ ds, c ≠ '-') (rest : List Char) :
    takeUntilDash (ds ++ '-' :: rest) = ds := by
  unfold takeUntilDash
  induction ds with
  | nil => simp
  | cons c cs ih =>
    have hc : c ≠ '-' := h c (by simp)
    rw [List.cons_append, List.takeWhile_cons, if_pos (by simp [hc]),
      ih (fun x hx => h x (by simp [hx]))]

/-- Character shape of the assigned id: the decimal stamp, a dash, the
encoded sender, `.json`. -/
theorem mkId_data (t : Nat) (f : String) :
    (mkId t f).data = decDigits t ++ '-' :: ((replaceAt f).data ++ ".json".data) := by
  unfold mkId
  simp [String.data_append]

/-- Ids assigned at distinct `UnixNano` stamps are distinct, whatever the
senders: the stamp is recoverable from the id as the digits before the
first dash. -/
theorem mkId_timestamp_inj (t1 t2 : Nat) (f1 f2 : String) (h : mkId t1 f1 = mkId t2 f2) :
    t1 = t2 := by
  have h1 : (mkId t1 f1).data = (mkId t2 f2).data := by rw [h]
  rw [mkId_data, mkId_data] at h1
  have e1 := takeUntilDash_append (decDigits t1) (decDigits_no_dash t1)
    ((replaceAt f1).data ++ ".json".data)
  have e2 := takeUntilDash_append (decDigits t2) (decDigits_no_dash t2)
    ((replaceAt f2).data ++ ".json".data)
  exact decDigits_inj t1 t2 (by rw [← e1, ← e2, h1])

/-- Assigned ids are never the empty string. -/
theorem mkId_ne_empty (t : Nat) (f : String) : mkId t f ≠ "" := by
  intro h
  have hd : (mkId t f).data = [] := by rw [h]
  rw [mkId_data] at hd
  rcases List.append_eq_nil.mp hd with ⟨h1, _⟩
  exact decDigits_ne_nil t h1

/-- C8: enqueuing a new message yields a record whose attempts counter is
0, whose id is non-empty and unique across enqueues with distinct
`UnixNano` stamps, and whose next-attempt time is the enqueue-time clock
reading — not later than any moment at or after the enqueue completes. -/
theorem enqueue_initial_record (tId tNow tc : Nat) (from_ : String)
    (rcpts : List String) (data : String) (h : tNow ≤ tc) :
    (queueMessage tId tNow from_ rcpts data).Attempts = 0 ∧
    (queueMessage tId tNow from_ rcpts data).ID ≠ "" ∧
    (queueMessage tId tNow from_ rcpts data).NextTry ≤ tc ∧
    ∀ (tId2 : Nat) (f2 : String), tId2 ≠ tId →
      mkId tId2 f2 ≠ (queueMessage tId tNow from_ rcpts data).ID := by
  refine ⟨rfl, mkId_ne_empty tId from_, h, ?_⟩
  intro tId2 f2 hne heq
  exact hne (mkId_timestamp_inj tId2 tId f2 from_ heq)

/-- Witness for C8 at a concrete enqueue. -/
theorem enqueue_initial_record_witness :
    (queueMessage 1 2 "a@b" ["c@d"] "Subject: hi\r\n\r\nbody\r\n").Attempts = 0 ∧
    (queueMessage 1 2 "a@b" ["c@d"] "Subject: hi\r\n\r\nbody\r\n").ID ≠ "" ∧
    (queueMessage 1 2 "a@b" ["c@d"] "Subject: hi\r\n\r\nbody\r\n").NextTry ≤ 2 ∧
    mkId 5 "x@y" ≠ (queueMessage 1 2 "a@b" ["c@d"] "Subject: hi\r\n\r\nbody\r\n").ID := by
  have h := enqueue_initial_record 1 2 2 "a@b" ["c@d"] "Subject: hi\r\n\r\nbody\r\n" (by decide)
  exact ⟨h.1, h.2.1, h.2.2.1, h.2.2.2 5 "x@y" (by decide)⟩

end SmtpMini
